import Mathlib

/-!
Verification of the serializer graph extensions of a sparse-matrix
property-graph storage layer (src/src/serializers/graph_extensions.c).

The file shallowly embeds the translation unit: graph state is an explicit
record, the in-place mutations of the C code become functional updates, and
the external collaborators (the Entity Store datablock, the GraphBLAS matrix
primitives, the growable-array utility and the statistics counter) are
modelled from the spec's interface descriptions, since their code lies
outside this translation unit.  Heap allocation of multi-edge arrays is
modelled by a counter-indexed heap: array_new draws a fresh pointer from
nextPtr.
-/

namespace FalkorSer

/-- Modelled from the spec: the tag bit of a 64-bit relation-matrix scalar
(spec §3, "tagged scalar": the top bit distinguishes one edge id from a
reference to a sequence).  The macros SINGLE_EDGE, SET_MSB and CLEAR_MSB are
declared in headers outside this translation unit; for scalars below 2^64
the arithmetic forms used here coincide with the bitwise ones. -/
def MSB_MASK : Nat := 2 ^ 63

/-- Modelled from the spec: a scalar whose top bit is clear is a single edge id. -/
def SINGLE_EDGE (x : Nat) : Bool := x < MSB_MASK

/-- Modelled from the spec: set the top bit of a 64-bit scalar. -/
def SET_MSB (x : Nat) : Nat := x % MSB_MASK + MSB_MASK

/-- Modelled from the spec: clear the top bit of a 64-bit scalar. -/
def CLEAR_MSB (x : Nat) : Nat := x % MSB_MASK

/-- Modelled from the spec: array_new, an empty growable array (the array
utility lives outside this translation unit; the spec demands a growable,
insertion-ordered sequence). -/
def array_new : List Nat := []

/-- Modelled from the spec: order-preserving append onto a growable array. -/
def array_append (l : List Nat) (v : Nat) : List Nat := l ++ [v]

/-- An entity record: a property count plus the property block (a NULL block
is modelled as none). -/
structure Entity where
  prop_count : Nat
  properties : Option (List Nat)
deriving Repr, DecidableEq

/-- Modelled from the spec: the Entity Store datablock — an id-indexed slot
array together with the append-only deleted-id sequence (spec §2 and §3,
"Deleted-id lists"; the datablock code lives outside this translation unit). -/
structure DataBlock where
  items : Nat → Option Entity
  deletedIdx : List Nat

/-- Modelled from the spec: allocate_at(id), out-of-order allocation of the
slot at a caller-supplied id.  The C function returns a pointer whose fields
the caller then initializes; the initialized record is taken as an argument. -/
def DataBlock_AllocateItemOutOfOrder (b : DataBlock) (id : Nat) (en : Entity) : DataBlock :=
  { b with items := fun i => if i = id then some en else b.items i }

/-- Modelled from the spec: mark_deleted_out_of_order(id) — tombstone an id
without compaction, appending it to the deletion sequence. -/
def DataBlock_MarkAsDeletedOutOfOrder (b : DataBlock) (id : Nat) : DataBlock :=
  { b with deletedIdx := b.deletedIdx ++ [id] }

/-- A sparse matrix: a cell holds either no value or one scalar. -/
def GMatrix (α : Type) : Type := Nat → Nat → Option α

/-- An RG_Matrix: a forward matrix paired with its transpose counterpart. -/
structure RGMatrix (α : Type) where
  m : GMatrix α
  tm : GMatrix α

def RG_MATRIX_M {α : Type} (M : RGMatrix α) : GMatrix α := M.m

def RG_MATRIX_TM {α : Type} (M : RGMatrix α) : GMatrix α := M.tm

/-- Modelled from the spec: point-wise set (GrB_Matrix_setElement). -/
def GrB_Matrix_setElement {α : Type} (f : GMatrix α) (v : α) (i j : Nat) : GMatrix α :=
  fun a b => if a = i ∧ b = j then some v else f a b

/-- Modelled from the spec: point-wise extract with presence check,
distinguishing absent from present. -/
def GrB_Matrix_extractElement {α : Type} (f : GMatrix α) (i j : Nat) : Option α := f i j

/-- The graph state visible to the serializer: the two entity datablocks, the
adjacency matrix pair, one relation matrix pair per relation type, one label
matrix pair per label, the combined node-label matrix, the per-relation edge
counters, and the allocator state (heap, nextPtr) for multi-edge arrays. -/
structure Graph where
  nodes : DataBlock
  edges : DataBlock
  adj : RGMatrix Bool
  relations : Nat → RGMatrix Nat
  labels : Nat → RGMatrix Bool
  node_labels : RGMatrix Bool
  stats : Nat → Nat
  heap : Nat → List Nat
  nextPtr : Nat
  label_count : Nat
  matrix_dim : Nat

/-- Modelled from the spec: return the adjacency matrix pair (graph.c lies
outside this translation unit; spec §4.1). -/
def Graph_GetAdjacencyMatrix (g : Graph) : RGMatrix Bool := g.adj

/-- Modelled from the spec: return the relation matrix pair of type r. -/
def Graph_GetRelationMatrix (g : Graph) (r : Nat) : RGMatrix Nat := g.relations r

/-- Modelled from the spec: return the label matrix pair of label l. -/
def Graph_GetLabelMatrix (g : Graph) (l : Nat) : RGMatrix Bool := g.labels l

/-- Modelled from the spec: return the combined node-label matrix pair. -/
def Graph_GetNodeLabelMatrix (g : Graph) : RGMatrix Bool := g.node_labels

/-- Modelled from the spec: the required matrix dimension of the graph. -/
def Graph_RequiredMatrixDim (g : Graph) : Nat := g.matrix_dim

/-- Modelled from the spec: the number of label types. -/
def Graph_LabelTypeCount (g : Graph) : Nat := g.label_count

/-- Modelled from the spec: increment_edge_count(relationType, delta) on the
statistics collaborator. -/
def GraphStatistics_IncEdgeCount (stats : Nat → Nat) (r delta : Nat) : Nat → Nat :=
  fun r' => if r' = r then stats r' + delta else stats r'

/-- Output record for Serializer_Graph_SetNode; the entity pointer is
modelled by the entity value it designates. -/
structure Node where
  id : Nat
  entity : Entity
deriving Repr, DecidableEq

/-- Output record for Serializer_Graph_SetEdge. -/
structure Edge where
  id : Nat
  entity : Entity
  relationID : Nat
  srcNodeID : Nat
  destNodeID : Nat
deriving Repr, DecidableEq

def Serializer_Graph_MarkEdgeDeleted (g : Graph) (id : Nat) : Graph :=
  { g with edges := DataBlock_MarkAsDeletedOutOfOrder g.edges id }

def Serializer_Graph_MarkNodeDeleted (g : Graph) (id : Nat) : Graph :=
  { g with nodes := DataBlock_MarkAsDeletedOutOfOrder g.nodes id }

/-- One iteration of the label loop of Serializer_Graph_SetNode (source
lines 31-37): set label's matrix (forward only) at position [id, id]. -/
def setNodeLabelMatrixStep (id : Nat) (h : Graph) (label : Nat) : Graph :=
  { h with labels := fun l =>
      if l = label then
        { Graph_GetLabelMatrix h label with
          m := GrB_Matrix_setElement (RG_MATRIX_M (Graph_GetLabelMatrix h label)) true id id }
      else h.labels l }

/-- Serializer_Graph_SetNode (source lines 22-38): allocate the entity slot
at id, zero its prop_count and properties, fill the output Node, then set
each named label matrix (forward only) at position [id, id]. -/
def Serializer_Graph_SetNode (g : Graph) (id : Nat) (labels : List Nat) : Graph × Node :=
  let en : Entity := { prop_count := 0, properties := none }
  let g := { g with nodes := DataBlock_AllocateItemOutOfOrder g.nodes id en }
  let n : Node := { id := id, entity := en }
  let g := labels.foldl (setNodeLabelMatrixStep id) g
  (g, n)

/-- Modelled from the spec: GxB_Vector_diag — extract the diagonal of a
matrix into a vector. -/
def GxB_Vector_diag {α : Type} (m : GMatrix α) : Nat → Option α := fun i => m i i

/-- Modelled from the spec: GxB_Col_subassign with no mask, no accumulator
and GrB_ALL rows — column col of c over the first nrows rows becomes exactly
the vector's pattern. -/
def GxB_Col_subassign {α : Type} (c : GMatrix α) (v : Nat → Option α) (nrows col : Nat) :
    GMatrix α :=
  fun a b => if b = col ∧ a < nrows then v a else c a b

/-- One iteration of the projection loop of Serializer_Graph_SetNodeLabels
(source lines 51-59): extract the diagonal of label i's matrix into the
vector of size node_count and assign it into column i of the combined
node-label matrix. -/
def projectLabelColumnStep (node_count : Nat) (h : Graph) (i : Nat) : Graph :=
  { h with node_labels :=
      { Graph_GetNodeLabelMatrix h with
        m := GxB_Col_subassign (RG_MATRIX_M (Graph_GetNodeLabelMatrix h))
          (GxB_Vector_diag (RG_MATRIX_M (Graph_GetLabelMatrix h i))) node_count i } }

/-- Serializer_Graph_SetNodeLabels (source lines 40-62): for each label i,
extract the diagonal of label i's matrix into a vector of size node_count and
assign it into column i of the combined node-label matrix. -/
def Serializer_Graph_SetNodeLabels (g : Graph) : Graph :=
  let node_count := Graph_RequiredMatrixDim g
  let label_count := Graph_LabelTypeCount g
  (List.range label_count).foldl (projectLabelColumnStep node_count) g

/-- Optimized form of Graph_FormConnection, used only when the relation
matrix holds no multi-edge values (source lines 66-97): set both adjacency
orientations to true, set both relation orientations to the raw edge id, and
bump the relation's edge counter. -/
def _OptimizedSingleEdgeFormConnection (g : Graph) (src dest edge_id r : Nat) : Graph :=
  let M := Graph_GetRelationMatrix g r
  let adj := Graph_GetAdjacencyMatrix g
  let adj_m := GrB_Matrix_setElement (RG_MATRIX_M adj) true src dest
  let adj_tm := GrB_Matrix_setElement (RG_MATRIX_TM adj) true dest src
  let m := GrB_Matrix_setElement (RG_MATRIX_M M) edge_id src dest
  let tm := GrB_Matrix_setElement (RG_MATRIX_TM M) edge_id dest src
  { g with
    adj := { m := adj_m, tm := adj_tm },
    relations := fun r' => if r' = r then { m := m, tm := tm } else g.relations r',
    stats := GraphStatistics_IncEdgeCount g.stats r 1 }

/-- Optimized form of Graph_FormConnection, used when the relation matrix may
hold multi-edge values (source lines 101-155): set both adjacency
orientations; extract the current relation cell; if absent write the raw edge
id to both orientations; if present and single-tagged allocate a fresh
two-element array, seed it with the existing id, append the new id, and write
the tagged pointer to both orientations; if present and multi-tagged append
to the existing array in place and rewrite the same tagged pointer to both
orientations; finally bump the relation's edge counter. -/
def _OptimizedMultiEdgeFormConnection (g : Graph) (src dest edge_id r : Nat) : Graph :=
  let adj := Graph_GetAdjacencyMatrix g
  let adj_m := GrB_Matrix_setElement (RG_MATRIX_M adj) true src dest
  let adj_tm := GrB_Matrix_setElement (RG_MATRIX_TM adj) true dest src
  let g := { g with adj := { m := adj_m, tm := adj_tm } }
  let g :=
    match GrB_Matrix_extractElement (RG_MATRIX_M (Graph_GetRelationMatrix g r)) src dest with
    | none =>
        { g with relations := fun r' =>
            if r' = r then
              { m := GrB_Matrix_setElement (RG_MATRIX_M (Graph_GetRelationMatrix g r))
                  edge_id src dest,
                tm := GrB_Matrix_setElement (RG_MATRIX_TM (Graph_GetRelationMatrix g r))
                  edge_id dest src }
            else g.relations r' }
    | some x0 =>
        if SINGLE_EDGE x0 then
          let p := g.nextPtr
          let entries := array_append (array_append array_new x0) edge_id
          let g := { g with
            heap := fun q => if q = p then entries else g.heap q,
            nextPtr := g.nextPtr + 1 }
          let x := SET_MSB p
          { g with relations := fun r' =>
              if r' = r then
                { m := GrB_Matrix_setElement (RG_MATRIX_M (Graph_GetRelationMatrix g r))
                    x src dest,
                  tm := GrB_Matrix_setElement (RG_MATRIX_TM (Graph_GetRelationMatrix g r))
                    x dest src }
              else g.relations r' }
        else
          let p := CLEAR_MSB x0
          let entries := array_append (g.heap p) edge_id
          let g := { g with heap := fun q => if q = p then entries else g.heap q }
          let x := SET_MSB p
          { g with relations := fun r' =>
              if r' = r then
                { m := GrB_Matrix_setElement (RG_MATRIX_M (Graph_GetRelationMatrix g r))
                    x src dest,
                  tm := GrB_Matrix_setElement (RG_MATRIX_TM (Graph_GetRelationMatrix g r))
                    x dest src }
              else g.relations r' }
  { g with stats := GraphStatistics_IncEdgeCount g.stats r 1 }

/-- Serializer_Graph_SetEdge (source lines 158-176): allocate the edge
entity slot, zero it, fill the output Edge record, and dispatch on the
multi_edge flag to the multi- or single-edge connection routine. -/
def Serializer_Graph_SetEdge (g : Graph) (multi_edge : Int) (edge_id src dest r : Nat) :
    Graph × Edge :=
  let en : Entity := { prop_count := 0, properties := none }
  let g := { g with edges := DataBlock_AllocateItemOutOfOrder g.edges edge_id en }
  let e : Edge :=
    { id := edge_id, entity := en, relationID := r, srcNodeID := src, destNodeID := dest }
  let g :=
    if multi_edge ≠ 0 then _OptimizedMultiEdgeFormConnection g src dest edge_id r
    else _OptimizedSingleEdgeFormConnection g src dest edge_id r
  (g, e)

/-- Source lines 180-182: the deleted nodes list is the nodes datablock's
deletion index, returned verbatim. -/
def Serializer_Graph_GetDeletedNodesList (g : Graph) : List Nat := g.nodes.deletedIdx

/-- Source lines 185-187: the deleted edges list is the edges datablock's
deletion index, returned verbatim. -/
def Serializer_Graph_GetDeletedEdgesList (g : Graph) : List Nat := g.edges.deletedIdx

/-- Modelled from the spec: read back a relation cell as the list of edge
ids it encodes (spec §3, "Matrix cell encoding invariant"): absent is the
empty list, a top-bit-clear scalar is one edge id, a top-bit-set scalar
references the sequence of all parallel edge ids. -/
def cellEdges (g : Graph) (r i j : Nat) : List Nat :=
  match (g.relations r).m i j with
  | none => []
  | some x => if SINGLE_EDGE x then [x] else g.heap (CLEAR_MSB x)

/-- One Serializer_Graph_SetEdge call description, used to state properties
over arbitrary sequences of insertions. -/
structure EdgeOp where
  multi : Int
  eid : Nat
  src : Nat
  dest : Nat
  r : Nat
deriving Repr, DecidableEq

/-- Drive a load: apply Serializer_Graph_SetEdge for each op in order. -/
def applyEdgeOps (g : Graph) (ops : List EdgeOp) : Graph :=
  ops.foldl (fun h op => (Serializer_Graph_SetEdge h op.multi op.eid op.src op.dest op.r).1) g

/-- Drive a sequence of multi-edge insertions of the given ids on one fixed
ordered pair and relation type. -/
def multiInsertSeq (g : Graph) (src dest r : Nat) (ids : List Nat) : Graph :=
  ids.foldl (fun h e => (Serializer_Graph_SetEdge h 1 e src dest r).1) g

/-- An empty datablock, for concrete evaluation. -/
def emptyDataBlock : DataBlock := { items := fun _ => none, deletedIdx := [] }

/-- An empty matrix pair, for concrete evaluation. -/
def emptyRGMatrix {α : Type} : RGMatrix α := { m := fun _ _ => none, tm := fun _ _ => none }

/-- A fresh graph with no entities, no matrix entries, zeroed counters and an
empty allocator, for concrete evaluation. -/
def emptyGraph : Graph :=
  { nodes := emptyDataBlock
    edges := emptyDataBlock
    adj := emptyRGMatrix
    relations := fun _ => emptyRGMatrix
    labels := fun _ => emptyRGMatrix
    node_labels := emptyRGMatrix
    stats := fun _ => 0
    heap := fun _ => []
    nextPtr := 0
    label_count := 0
    matrix_dim := 0 }

/-! ### Normal forms of the connection routines -/

theorem multiConn_none (g : Graph) (s d e r : Nat) (h : (g.relations r).m s d = none) :
    _OptimizedMultiEdgeFormConnection g s d e r
      = { g with
          adj := { m := GrB_Matrix_setElement g.adj.m true s d,
                   tm := GrB_Matrix_setElement g.adj.tm true d s },
          relations := fun r' =>
            if r' = r then
              { m := GrB_Matrix_setElement (g.relations r).m e s d,
                tm := GrB_Matrix_setElement (g.relations r).tm e d s }
            else g.relations r',
          stats := GraphStatistics_IncEdgeCount g.stats r 1 } := by
  unfold _OptimizedMultiEdgeFormConnection
  dsimp only [Graph_GetAdjacencyMatrix, Graph_GetRelationMatrix, RG_MATRIX_M, RG_MATRIX_TM,
    GrB_Matrix_extractElement]
  rw [h]

theorem multiConn_single (g : Graph) (s d e r x : Nat) (h : (g.relations r).m s d = some x)
    (hx : SINGLE_EDGE x = true) :
    _OptimizedMultiEdgeFormConnection g s d e r
      = { g with
          adj := { m := GrB_Matrix_setElement g.adj.m true s d,
                   tm := GrB_Matrix_setElement g.adj.tm true d s },
          heap := fun q => if q = g.nextPtr then [x, e] else g.heap q,
          nextPtr := g.nextPtr + 1,
          relations := fun r' =>
            if r' = r then
              { m := GrB_Matrix_setElement (g.relations r).m (SET_MSB g.nextPtr) s d,
                tm := GrB_Matrix_setElement (g.relations r).tm (SET_MSB g.nextPtr) d s }
            else g.relations r',
          stats := GraphStatistics_IncEdgeCount g.stats r 1 } := by
  unfold _OptimizedMultiEdgeFormConnection
  dsimp only [Graph_GetAdjacencyMatrix, Graph_GetRelationMatrix, RG_MATRIX_M, RG_MATRIX_TM,
    GrB_Matrix_extractElement]
  rw [h]
  dsimp only [array_append, array_new]
  rw [hx]
  simp

theorem multiConn_multi (g : Graph) (s d e r x : Nat) (h : (g.relations r).m s d = some x)
    (hx : SINGLE_EDGE x = false) :
    _OptimizedMultiEdgeFormConnection g s d e r
      = { g with
          adj := { m := GrB_Matrix_setElement g.adj.m true s d,
                   tm := GrB_Matrix_setElement g.adj.tm true d s },
          heap := fun q =>
            if q = CLEAR_MSB x then g.heap (CLEAR_MSB x) ++ [e] else g.heap q,
          relations := fun r' =>
            if r' = r then
              { m := GrB_Matrix_setElement (g.relations r).m (SET_MSB (CLEAR_MSB x)) s d,
                tm := GrB_Matrix_setElement (g.relations r).tm (SET_MSB (CLEAR_MSB x)) d s }
            else g.relations r',
          stats := GraphStatistics_IncEdgeCount g.stats r 1 } := by
  unfold _OptimizedMultiEdgeFormConnection
  dsimp only [Graph_GetAdjacencyMatrix, Graph_GetRelationMatrix, RG_MATRIX_M, RG_MATRIX_TM,
    GrB_Matrix_extractElement]
  rw [h]
  dsimp only [array_append, array_new]
  rw [hx]
  simp

theorem singleConn_eq (g : Graph) (s d e r : Nat) :
    _OptimizedSingleEdgeFormConnection g s d e r
      = { g with
          adj := { m := GrB_Matrix_setElement g.adj.m true s d,
                   tm := GrB_Matrix_setElement g.adj.tm true d s },
          relations := fun r' =>
            if r' = r then
              { m := GrB_Matrix_setElement (g.relations r).m e s d,
                tm := GrB_Matrix_setElement (g.relations r).tm e d s }
            else g.relations r',
          stats := GraphStatistics_IncEdgeCount g.stats r 1 } := by
  rfl

/-- The entity-allocation prefix of Serializer_Graph_SetEdge, shared by both
dispatch branches. -/
def allocEdge (g : Graph) (e : Nat) : Graph :=
  { g with edges := DataBlock_AllocateItemOutOfOrder g.edges e ⟨0, none⟩ }

theorem setEdge_graph_multi (g : Graph) (me : Int) (hme : me ≠ 0) (e s d r : Nat) :
    (Serializer_Graph_SetEdge g me e s d r).1
      = _OptimizedMultiEdgeFormConnection (allocEdge g e) s d e r := by
  simp [Serializer_Graph_SetEdge, allocEdge, hme]

theorem setEdge_graph_single (g : Graph) (e s d r : Nat) :
    (Serializer_Graph_SetEdge g 0 e s d r).1
      = _OptimizedSingleEdgeFormConnection (allocEdge g e) s d e r := by
  simp [Serializer_Graph_SetEdge, allocEdge]

theorem multiConn_stats (g : Graph) (s d e r r' : Nat) :
    (_OptimizedMultiEdgeFormConnection g s d e r).stats r'
      = if r' = r then g.stats r' + 1 else g.stats r' := by
  rcases hc : (g.relations r).m s d with _ | x
  · rw [multiConn_none g s d e r hc]; rfl
  · rcases hx : SINGLE_EDGE x with _ | _
    · rw [multiConn_multi g s d e r x hc hx]; rfl
    · rw [multiConn_single g s d e r x hc hx]; rfl

theorem multiConn_edges (g : Graph) (s d e r : Nat) :
    (_OptimizedMultiEdgeFormConnection g s d e r).edges = g.edges := by
  rcases hc : (g.relations r).m s d with _ | x
  · rw [multiConn_none g s d e r hc]
  · rcases hx : SINGLE_EDGE x with _ | _
    · rw [multiConn_multi g s d e r x hc hx]
    · rw [multiConn_single g s d e r x hc hx]

/-! ### Statistics -/

theorem setEdge_stats (g : Graph) (me : Int) (e s d r r' : Nat) :
    ((Serializer_Graph_SetEdge g me e s d r).1).stats r'
      = if r' = r then g.stats r' + 1 else g.stats r' := by
  by_cases hme : me ≠ 0
  · rw [setEdge_graph_multi g me hme e s d r, multiConn_stats]
    rfl
  · simp only [ne_eq, not_not] at hme
    subst hme
    rw [setEdge_graph_single g e s d r, singleConn_eq]
    rfl

theorem applyEdgeOps_stats (ops : List EdgeOp) (g : Graph) (R : Nat) :
    (applyEdgeOps g ops).stats R = g.stats R + ops.countP (fun op => op.r == R) := by
  induction ops generalizing g with
  | nil => simp [applyEdgeOps]
  | cons op ops ih =>
      have step := setEdge_stats g op.multi op.eid op.src op.dest op.r R
      simp only [applyEdgeOps, List.foldl_cons] at *
      rw [ih, step, List.countP_cons]
      by_cases hR : op.r = R
      · simp [hR]
        omega
      · have hb : (op.r == R) = false := by simp [hR]
        simp [hb, if_neg (Ne.symm hR)]

/-- C3: every call to Serializer_Graph_SetEdge, through either connection
routine and regardless of the branch taken inside the multi path, increments
the edge counter of the edge's relation type by exactly 1 and leaves every
other relation type's counter unchanged; consequently, over any sequence of
insertions the counter of relation R grows by exactly the number of
insertions of type R (so after K insertions of type R starting from a zero
counter it equals K). -/
theorem setEdge_increments_exactly_one_counter :
    (∀ (g : Graph) (me : Int) (e s d r r' : Nat),
        ((Serializer_Graph_SetEdge g me e s d r).1).stats r'
          = if r' = r then g.stats r' + 1 else g.stats r')
    ∧ (∀ (ops : List EdgeOp) (g : Graph) (R : Nat),
        (applyEdgeOps g ops).stats R = g.stats R + ops.countP (fun op => op.r == R)) :=
  ⟨setEdge_stats, applyEdgeOps_stats⟩

/-! ### The single-edge path -/

/-- C6: a single-edge Serializer_Graph_SetEdge call (multi-edge flag clear)
leaves the relation matrix cell at (src, dest) equal to exactly the inserted
untagged edge id and the transpose cell at (dest, src) equal to the same id,
for every prior graph state — in particular no read or existence check of a
pre-existing cell value is performed before writing, since the result does
not depend on the prior content of the cell. -/
theorem single_edge_cell_exact (g : Graph) (e s d r : Nat) :
    ((((Serializer_Graph_SetEdge g 0 e s d r).1).relations r).m s d = some e)
    ∧ ((((Serializer_Graph_SetEdge g 0 e s d r).1).relations r).tm d s = some e) := by
  rw [setEdge_graph_single g e s d r, singleConn_eq]
  constructor <;> simp [GrB_Matrix_setElement]

/-! ### Deletion bookkeeping -/

/-- C8: Serializer_Graph_MarkNodeDeleted and Serializer_Graph_MarkEdgeDeleted
only append the id to the respective datablock's deletion index: every matrix
(adjacency, relation, label, node-label, together with all transposes held in
the same pairs), the statistics, the multi-edge heap and every entity slot
are unchanged, and after marking a then b deleted the deleted-ids list is the
previous list extended by [a, b] in deletion order. -/
theorem mark_deleted_appends_only (g : Graph) (a b : Nat) :
    (Serializer_Graph_GetDeletedNodesList
        (Serializer_Graph_MarkNodeDeleted (Serializer_Graph_MarkNodeDeleted g a) b)
      = g.nodes.deletedIdx ++ [a, b])
    ∧ (Serializer_Graph_GetDeletedEdgesList
        (Serializer_Graph_MarkEdgeDeleted (Serializer_Graph_MarkEdgeDeleted g a) b)
      = g.edges.deletedIdx ++ [a, b])
    ∧ ((Serializer_Graph_MarkNodeDeleted g a).nodes.items = g.nodes.items
      ∧ (Serializer_Graph_MarkNodeDeleted g a).edges = g.edges
      ∧ (Serializer_Graph_MarkNodeDeleted g a).adj = g.adj
      ∧ (Serializer_Graph_MarkNodeDeleted g a).relations = g.relations
      ∧ (Serializer_Graph_MarkNodeDeleted g a).labels = g.labels
      ∧ (Serializer_Graph_MarkNodeDeleted g a).node_labels = g.node_labels
      ∧ (Serializer_Graph_MarkNodeDeleted g a).stats = g.stats
      ∧ (Serializer_Graph_MarkNodeDeleted g a).heap = g.heap)
    ∧ ((Serializer_Graph_MarkEdgeDeleted g a).edges.items = g.edges.items
      ∧ (Serializer_Graph_MarkEdgeDeleted g a).nodes = g.nodes
      ∧ (Serializer_Graph_MarkEdgeDeleted g a).adj = g.adj
      ∧ (Serializer_Graph_MarkEdgeDeleted g a).relations = g.relations
      ∧ (Serializer_Graph_MarkEdgeDeleted g a).labels = g.labels
      ∧ (Serializer_Graph_MarkEdgeDeleted g a).node_labels = g.node_labels
      ∧ (Serializer_Graph_MarkEdgeDeleted g a).stats = g.stats
      ∧ (Serializer_Graph_MarkEdgeDeleted g a).heap = g.heap) := by
  refine ⟨?_, ?_, ⟨rfl, rfl, rfl, rfl, rfl, rfl, rfl, rfl⟩,
    ⟨rfl, rfl, rfl, rfl, rfl, rfl, rfl, rfl⟩⟩ <;>
    simp [Serializer_Graph_GetDeletedNodesList, Serializer_Graph_GetDeletedEdgesList,
      Serializer_Graph_MarkNodeDeleted, Serializer_Graph_MarkEdgeDeleted,
      DataBlock_MarkAsDeletedOutOfOrder]

/-! ### Fresh entity initialization -/

/-- C10: every entity slot allocated by Serializer_Graph_SetNode or
Serializer_Graph_SetEdge starts with property count 0 and an empty (NULL)
property block, and the output Node/Edge record carries exactly the
caller-supplied id (and for edges the caller-supplied relation type, source
and destination) plus a reference to that fresh entity. -/
theorem set_entity_fresh_init (g : Graph) (id : Nat) (L : List Nat)
    (me : Int) (e s d r : Nat) :
    ((Serializer_Graph_SetNode g id L).2
        = { id := id, entity := { prop_count := 0, properties := none } })
    ∧ (((Serializer_Graph_SetNode g id L).1).nodes.items id
        = some { prop_count := 0, properties := none })
    ∧ ((Serializer_Graph_SetEdge g me e s d r).2
        = { id := e, entity := { prop_count := 0, properties := none },
            relationID := r, srcNodeID := s, destNodeID := d })
    ∧ (((Serializer_Graph_SetEdge g me e s d r).1).edges.items e
        = some { prop_count := 0, properties := none }) := by
  refine ⟨rfl, ?_, rfl, ?_⟩
  · have hnodes : ∀ (ls : List Nat) (h : Graph),
        (ls.foldl (setNodeLabelMatrixStep id) h).nodes = h.nodes := by
      intro ls
      induction ls with
      | nil => intro h; rfl
      | cons a ls ih => intro h; rw [List.foldl_cons, ih]; rfl
    show ((L.foldl (setNodeLabelMatrixStep id) _).nodes).items id = _
    rw [hnodes]
    simp [DataBlock_AllocateItemOutOfOrder]
  · by_cases hme : me ≠ 0
    · rw [setEdge_graph_multi g me hme e s d r, multiConn_edges]
      simp [allocEdge, DataBlock_AllocateItemOutOfOrder]
    · simp only [ne_eq, not_not] at hme
      subst hme
      rw [setEdge_graph_single g e s d r, singleConn_eq]
      simp [allocEdge, DataBlock_AllocateItemOutOfOrder]

/-! ### Tag-bit arithmetic -/

theorem single_edge_of_lt (x : Nat) (hx : x < MSB_MASK) : SINGLE_EDGE x = true := by
  simp only [SINGLE_EDGE, decide_eq_true_eq]
  exact hx

theorem single_edge_set_msb (p : Nat) : SINGLE_EDGE (SET_MSB p) = false := by
  simp only [SINGLE_EDGE, SET_MSB, decide_eq_false_iff_not]
  exact Nat.not_lt.mpr (Nat.le_add_left MSB_MASK (p % MSB_MASK))

theorem clear_set_msb (p : Nat) (hp : p < MSB_MASK) : CLEAR_MSB (SET_MSB p) = p := by
  unfold CLEAR_MSB SET_MSB
  rw [Nat.mod_eq_of_lt hp, Nat.add_mod_right, Nat.mod_eq_of_lt hp]

/-! ### Forward/transpose duality -/

/-- The forward/transpose pairing invariant of spec §3: the adjacency matrix
and each relation matrix agree with their transpose counterparts under
coordinate swap, cell for cell. -/
def Dual (g : Graph) : Prop :=
  (∀ i j, g.adj.m i j = g.adj.tm j i)
  ∧ (∀ r i j, (g.relations r).m i j = (g.relations r).tm j i)

theorem dual_setElement_pair {α : Type} (f ft : GMatrix α) (v : α) (s d : Nat)
    (h : ∀ i j, f i j = ft j i) (i j : Nat) :
    GrB_Matrix_setElement f v s d i j = GrB_Matrix_setElement ft v d s j i := by
  simp only [GrB_Matrix_setElement]
  by_cases h1 : i = s ∧ j = d
  · rw [if_pos h1, if_pos ⟨h1.2, h1.1⟩]
  · rw [if_neg h1, if_neg (by tauto), h i j]

theorem setEdge_dual (g : Graph) (me : Int) (e s d r : Nat) (hg : Dual g) :
    Dual (Serializer_Graph_SetEdge g me e s d r).1 := by
  obtain ⟨hadj, hrel⟩ := hg
  have main : ∀ (h' : Graph), h'.adj = g.adj → h'.relations = g.relations →
      ∀ (v : Nat),
      ((∀ i j, (GrB_Matrix_setElement h'.adj.m true s d) i j
          = (GrB_Matrix_setElement h'.adj.tm true d s) j i)
        ∧ (∀ r' i j,
            ((if r' = r then
                { m := GrB_Matrix_setElement (h'.relations r).m v s d,
                  tm := GrB_Matrix_setElement (h'.relations r).tm v d s }
              else h'.relations r') : RGMatrix Nat).m i j
            = ((if r' = r then
                  { m := GrB_Matrix_setElement (h'.relations r).m v s d,
                    tm := GrB_Matrix_setElement (h'.relations r).tm v d s }
                else h'.relations r') : RGMatrix Nat).tm j i)) := by
    intro h' ha hr v
    constructor
    · intro i j
      rw [ha]
      exact dual_setElement_pair g.adj.m g.adj.tm true s d hadj i j
    · intro r' i j
      rw [hr]
      by_cases hrr : r' = r
      · rw [if_pos hrr]
        exact dual_setElement_pair (g.relations r).m (g.relations r).tm v s d (hrel r) i j
      · rw [if_neg hrr]
        exact hrel r' i j
  by_cases hme : me ≠ 0
  · rw [setEdge_graph_multi g me hme e s d r]
    rcases hc : (g.relations r).m s d with _ | x
    · rw [multiConn_none (allocEdge g e) s d e r hc]
      exact main _ rfl rfl e
    · rcases hx : SINGLE_EDGE x with _ | _
      · rw [multiConn_multi (allocEdge g e) s d e r x hc hx]
        exact main _ rfl rfl (SET_MSB (CLEAR_MSB x))
      · rw [multiConn_single (allocEdge g e) s d e r x hc hx]
        exact main _ rfl rfl (SET_MSB _)
  · simp only [ne_eq, not_not] at hme
    subst hme
    rw [setEdge_graph_single g e s d r, singleConn_eq]
    exact main _ rfl rfl e

theorem applyEdgeOps_dual (ops : List EdgeOp) (g : Graph) (hg : Dual g) :
    Dual (applyEdgeOps g ops) := by
  induction ops generalizing g with
  | nil => exact hg
  | cons op ops ih =>
      exact ih _ (setEdge_dual g op.multi op.eid op.src op.dest op.r hg)

/-- C2: after every call to Serializer_Graph_SetEdge (through the single or
the multi path), the forward and transpose matrices agree under coordinate
swap: one call preserves the duality invariant, and hence after any sequence
of calls starting from a dual state the adjacency matrix holds true at
(src, dest) iff its transpose holds true at (dest, src) and each relation
cell equals its transpose cell under swap, for every edge inserted so far. -/
theorem setEdge_preserves_dual :
    (∀ (g : Graph) (me : Int) (e s d r : Nat),
        Dual g → Dual (Serializer_Graph_SetEdge g me e s d r).1)
    ∧ (∀ (ops : List EdgeOp) (g : Graph), Dual g → Dual (applyEdgeOps g ops)) :=
  ⟨setEdge_dual, applyEdgeOps_dual⟩

/-- Witness for C2 at a concrete load: a multi insertion, a parallel multi
insertion and an unrelated single insertion on the empty graph. -/
theorem setEdge_preserves_dual_witness :
    Dual (applyEdgeOps emptyGraph
      [{ multi := 1, eid := 7, src := 0, dest := 1, r := 0 },
       { multi := 1, eid := 8, src := 0, dest := 1, r := 0 },
       { multi := 0, eid := 9, src := 2, dest := 3, r := 1 }]) :=
  setEdge_preserves_dual.2 _ emptyGraph ⟨fun _ _ => rfl, fun _ _ _ => rfl⟩

/-! ### Multi-edge sequence readback -/

/-- The possible states of one relation cell after the prefix acc of a
multi-edge insertion sequence: untouched, single-tagged holding the one
inserted id, or multi-tagged holding an allocated pointer to the full id
sequence. -/
def CellState (g : Graph) (r s d : Nat) (acc : List Nat) : Prop :=
  (acc = [] ∧ (g.relations r).m s d = none ∧ g.nextPtr < MSB_MASK)
  ∨ (∃ e, acc = [e] ∧ e < MSB_MASK ∧ (g.relations r).m s d = some e
      ∧ g.nextPtr < MSB_MASK)
  ∨ (2 ≤ acc.length ∧ ∃ p, p < MSB_MASK ∧ (g.relations r).m s d = some (SET_MSB p)
      ∧ g.heap p = acc)

theorem cellState_step (g : Graph) (r s d : Nat) (acc : List Nat) (e : Nat)
    (he : e < MSB_MASK) (hst : CellState g r s d acc) :
    CellState (Serializer_Graph_SetEdge g 1 e s d r).1 r s d (acc ++ [e]) := by
  rw [setEdge_graph_multi g 1 (by decide) e s d r]
  rcases hst with ⟨hacc, hcell, hp⟩ | ⟨e0, hacc, he0, hcell, hp⟩ | ⟨hlen, p, hplt, hcell, hheap⟩
  · rw [multiConn_none (allocEdge g e) s d e r hcell]
    subst hacc
    exact Or.inr (Or.inl ⟨e, rfl, he, by simp [GrB_Matrix_setElement], hp⟩)
  · rw [multiConn_single (allocEdge g e) s d e r e0 hcell (single_edge_of_lt e0 he0)]
    subst hacc
    refine Or.inr (Or.inr ⟨by simp, g.nextPtr, hp, ?_, ?_⟩)
    · simp [GrB_Matrix_setElement, allocEdge]
    · simp [allocEdge]
  · rw [multiConn_multi (allocEdge g e) s d e r (SET_MSB p) hcell (single_edge_set_msb p)]
    refine Or.inr (Or.inr ⟨?_, p, hplt, ?_, ?_⟩)
    · simp
      omega
    · simp [GrB_Matrix_setElement, clear_set_msb p hplt]
    · simp [clear_set_msb p hplt, allocEdge, hheap]

theorem cellState_fold (ids : List Nat) (g : Graph) (r s d : Nat) (acc : List Nat)
    (hids : ∀ e ∈ ids, e < MSB_MASK) (hst : CellState g r s d acc) :
    CellState (multiInsertSeq g s d r ids) r s d (acc ++ ids) := by
  induction ids generalizing g acc with
  | nil => simpa [multiInsertSeq] using hst
  | cons e ids ih =>
      have h1 := cellState_step g r s d acc e (hids e (by simp)) hst
      have h2 := ih (Serializer_Graph_SetEdge g 1 e s d r).1 (acc ++ [e])
        (fun e' he' => hids e' (by simp [he'])) h1
      simpa [multiInsertSeq, List.foldl_cons, List.append_assoc] using h2

/-- C1: driving Serializer_Graph_SetEdge with the multi-edge flag set over
any sequence of edge ids on one fixed ordered pair and relation type, the
relation cell reads back exactly the inserted ids in insertion order — for
0, 1, 2 or N insertions; in particular the second insertion turns the
single-tagged cell into a multi-tagged one without losing the first id. -/
theorem multi_edge_sequence_readback (g : Graph) (s d r : Nat) (ids : List Nat)
    (hcell : (g.relations r).m s d = none) (hptr : g.nextPtr < MSB_MASK)
    (hids : ∀ e ∈ ids, e < MSB_MASK) :
    cellEdges (multiInsertSeq g s d r ids) r s d = ids := by
  have h := cellState_fold ids g r s d [] hids (Or.inl ⟨rfl, hcell, hptr⟩)
  rw [List.nil_append] at h
  rcases h with ⟨hacc, hc, _⟩ | ⟨e, hacc, he, hc, _⟩ | ⟨_, p, hplt, hc, hheap⟩
  · rw [hacc]
    simp [cellEdges, hacc ▸ hc]
  · rw [hacc]
    simp [cellEdges, hacc ▸ hc, single_edge_of_lt e he]
  · simp [cellEdges, hc, single_edge_set_msb p, clear_set_msb p hplt, hheap]

/-- Witness for C1: inserting ids 10, 11, 12 on pair (0, 1) of relation 0 in
the empty graph reads back [10, 11, 12]. -/
theorem multi_edge_sequence_readback_witness :
    cellEdges (multiInsertSeq emptyGraph 0 1 0 [10, 11, 12]) 0 0 1 = [10, 11, 12] :=
  multi_edge_sequence_readback emptyGraph 0 1 0 [10, 11, 12] rfl (by decide) (by decide)

/-! ### Shared multi-edge sequence between the two orientations -/

/-- C9: when the multi path creates or extends a multi-edge sequence (the
relation cell is already occupied), the forward cell at (src, dest) and the
transpose cell at (dest, src) are written with the same tagged reference to
one shared sequence, which after the single order-preserving append holds
the previous content of the cell extended by the new edge id. -/
theorem multi_edge_shared_sequence (g : Graph) (s d e r x : Nat)
    (h : (g.relations r).m s d = some x) :
    ∃ p, (((Serializer_Graph_SetEdge g 1 e s d r).1).relations r).m s d
          = some (SET_MSB p)
      ∧ (((Serializer_Graph_SetEdge g 1 e s d r).1).relations r).tm d s
          = some (SET_MSB p)
      ∧ ((Serializer_Graph_SetEdge g 1 e s d r).1).heap p
          = (if SINGLE_EDGE x then [x] else g.heap (CLEAR_MSB x)) ++ [e] := by
  rw [setEdge_graph_multi g 1 (by decide) e s d r]
  rcases hx : SINGLE_EDGE x with _ | _
  · rw [multiConn_multi (allocEdge g e) s d e r x h hx]
    exact ⟨CLEAR_MSB x, by simp [GrB_Matrix_setElement, allocEdge],
      by simp [GrB_Matrix_setElement, allocEdge], by simp [allocEdge]⟩
  · rw [multiConn_single (allocEdge g e) s d e r x h hx]
    exact ⟨g.nextPtr, by simp [GrB_Matrix_setElement, allocEdge],
      by simp [GrB_Matrix_setElement, allocEdge], by simp [allocEdge]⟩

/-- A one-single-edge graph used to witness the occupied-cell hypotheses:
relation 0 holds edge id 7 on the ordered pair (0, 1), in both orientations. -/
def singleEdgeGraph : Graph :=
  { emptyGraph with relations := fun rr =>
      if rr = 0 then
        { m := fun i j => if i = 0 ∧ j = 1 then some 7 else none,
          tm := fun i j => if i = 1 ∧ j = 0 then some 7 else none }
      else emptyRGMatrix }

/-- Witness for C9: extending the single-tagged cell (0, 1) of
singleEdgeGraph with edge id 11. -/
theorem multi_edge_shared_sequence_witness :
    ∃ p, (((Serializer_Graph_SetEdge singleEdgeGraph 1 11 0 1 0).1).relations 0).m 0 1
          = some (SET_MSB p)
      ∧ (((Serializer_Graph_SetEdge singleEdgeGraph 1 11 0 1 0).1).relations 0).tm 1 0
          = some (SET_MSB p)
      ∧ ((Serializer_Graph_SetEdge singleEdgeGraph 1 11 0 1 0).1).heap p
          = (if SINGLE_EDGE 7 then [7] else singleEdgeGraph.heap (CLEAR_MSB 7)) ++ [11] :=
  multi_edge_shared_sequence singleEdgeGraph 0 1 11 0 7 rfl

/-! ### Label projection -/

theorem setNodeLoop_labels (L : List Nat) (h : Graph) (id l a b : Nat) :
    ((L.foldl (setNodeLabelMatrixStep id) h).labels l).m a b
      = if l ∈ L ∧ a = id ∧ b = id then some true else (h.labels l).m a b := by
  induction L generalizing h with
  | nil => simp
  | cons lab L ih =>
      rw [List.foldl_cons, ih]
      simp only [setNodeLabelMatrixStep, Graph_GetLabelMatrix, RG_MATRIX_M,
        GrB_Matrix_setElement, List.mem_cons]
      by_cases h2 : l = lab <;> by_cases h3 : a = id ∧ b = id <;> by_cases h4 : l ∈ L <;>
        simp_all [GrB_Matrix_setElement]

theorem setNodeLoop_node_labels (L : List Nat) (h : Graph) (id : Nat) :
    (L.foldl (setNodeLabelMatrixStep id) h).node_labels = h.node_labels := by
  induction L generalizing h with
  | nil => rfl
  | cons lab L ih => rw [List.foldl_cons, ih]; rfl

theorem setNodeLoop_label_count (L : List Nat) (h : Graph) (id : Nat) :
    (L.foldl (setNodeLabelMatrixStep id) h).label_count = h.label_count := by
  induction L generalizing h with
  | nil => rfl
  | cons lab L ih => rw [List.foldl_cons, ih]; rfl

theorem setNodeLoop_matrix_dim (L : List Nat) (h : Graph) (id : Nat) :
    (L.foldl (setNodeLabelMatrixStep id) h).matrix_dim = h.matrix_dim := by
  induction L generalizing h with
  | nil => rfl
  | cons lab L ih => rw [List.foldl_cons, ih]; rfl

theorem setNode_labels_m (g : Graph) (id : Nat) (L : List Nat) (l a b : Nat) :
    (((Serializer_Graph_SetNode g id L).1).labels l).m a b
      = if l ∈ L ∧ a = id ∧ b = id then some true else (g.labels l).m a b :=
  setNodeLoop_labels L _ id l a b

theorem setNode_node_labels (g : Graph) (id : Nat) (L : List Nat) :
    ((Serializer_Graph_SetNode g id L).1).node_labels = g.node_labels :=
  setNodeLoop_node_labels L _ id

theorem setNode_label_count (g : Graph) (id : Nat) (L : List Nat) :
    ((Serializer_Graph_SetNode g id L).1).label_count = g.label_count :=
  setNodeLoop_label_count L _ id

theorem setNode_matrix_dim (g : Graph) (id : Nat) (L : List Nat) :
    ((Serializer_Graph_SetNode g id L).1).matrix_dim = g.matrix_dim :=
  setNodeLoop_matrix_dim L _ id

theorem projLoop_labels (nc n : Nat) (h : Graph) :
    ((List.range n).foldl (projectLabelColumnStep nc) h).labels = h.labels := by
  induction n generalizing h with
  | zero => rfl
  | succ n ih =>
      rw [List.range_succ, List.foldl_append]
      simp only [List.foldl_cons, List.foldl_nil]
      exact ih h

theorem projLoop_node_labels (nc a b n : Nat) (h : Graph) :
    ((List.range n).foldl (projectLabelColumnStep nc) h).node_labels.m a b
      = if b < n ∧ a < nc then (h.labels b).m a a else h.node_labels.m a b := by
  induction n generalizing h with
  | zero => simp
  | succ n ih =>
      rw [List.range_succ, List.foldl_append]
      simp only [List.foldl_cons, List.foldl_nil]
      simp only [projectLabelColumnStep, Graph_GetNodeLabelMatrix, RG_MATRIX_M,
        Graph_GetLabelMatrix, GxB_Col_subassign, GxB_Vector_diag]
      rw [projLoop_labels nc n h, ih h]
      by_cases hb : b = n
      · subst hb
        by_cases ha : a < nc <;> simp [ha, Nat.lt_irrefl, Nat.lt_succ_self]
      · have hlt : b < n + 1 ↔ b < n := by omega
        simp [hb, hlt]

/-- C7: a node inserted via Serializer_Graph_SetNode with label set L into a
graph where its label-diagonal bits and node-label row start empty has,
after one Serializer_Graph_SetNodeLabels call, exactly the bits of L set in
its node-label row: column i of the node-label matrix equals the diagonal of
label i's matrix, so the cell at (id, i) holds true iff i is in L and holds
nothing otherwise. -/
theorem node_label_projection_roundtrip (g : Graph) (id : Nat) (L : List Nat)
    (hL : ∀ l ∈ L, l < g.label_count) (hid : id < g.matrix_dim)
    (hfresh : ∀ i, (g.labels i).m id id = none)
    (hnl : ∀ j, g.node_labels.m id j = none) (i : Nat) :
    (Serializer_Graph_SetNodeLabels
        (Serializer_Graph_SetNode g id L).1).node_labels.m id i
      = if i ∈ L then some true else none := by
  have hrw : Serializer_Graph_SetNodeLabels (Serializer_Graph_SetNode g id L).1
      = (List.range g.label_count).foldl (projectLabelColumnStep g.matrix_dim)
          (Serializer_Graph_SetNode g id L).1 := by
    simp only [Serializer_Graph_SetNodeLabels, Graph_LabelTypeCount, Graph_RequiredMatrixDim,
      setNode_label_count, setNode_matrix_dim]
  rw [hrw, projLoop_node_labels g.matrix_dim id i g.label_count (Serializer_Graph_SetNode g id L).1,
    setNode_node_labels, setNode_labels_m, hfresh i, hnl i]
  by_cases hi : i ∈ L
  · have hilt : i < g.label_count := hL i hi
    simp [hi, hilt, hid]
  · simp [hi]

/-- A graph with two label types and matrix dimension two, used to witness
the projection round-trip on a concrete load. -/
def twoLabelGraph : Graph := { emptyGraph with label_count := 2, matrix_dim := 2 }

/-- Witness for C7: node 0 inserted with label set [1] in twoLabelGraph; after
projection its node-label row holds true at column 1 and nothing at column 0. -/
theorem node_label_projection_roundtrip_witness :
    ((Serializer_Graph_SetNodeLabels
        (Serializer_Graph_SetNode twoLabelGraph 0 [1]).1).node_labels.m 0 1
      = if 1 ∈ [1] then some true else none)
    ∧ ((Serializer_Graph_SetNodeLabels
        (Serializer_Graph_SetNode twoLabelGraph 0 [1]).1).node_labels.m 0 0
      = if 0 ∈ [1] then some true else none) :=
  ⟨node_label_projection_roundtrip twoLabelGraph 0 [1] (by decide) (by decide)
      (fun _ => rfl) (fun _ => rfl) 1,
    node_label_projection_roundtrip twoLabelGraph 0 [1] (by decide) (by decide)
      (fun _ => rfl) (fun _ => rfl) 0⟩

/-! ### Cell tagging invariant -/

/-- A relation cell currently holds a multi-tagged scalar. -/
def cellMulti (g : Graph) (r i j : Nat) : Prop :=
  ∃ x, (g.relations r).m i j = some x ∧ SINGLE_EDGE x = false

/-- A relation cell currently holds a single-tagged scalar. -/
def cellSingle (g : Graph) (r i j : Nat) : Prop :=
  ∃ x, (g.relations r).m i j = some x ∧ SINGLE_EDGE x = true

/-- Well-formedness of all relation cells: a present scalar is either
single-tagged (its remaining bits are the one edge id itself) or multi-tagged
with its cleared remaining bits referencing an allocated sequence. -/
def RelWF (g : Graph) : Prop :=
  ∀ r i j x, (g.relations r).m i j = some x →
    SINGLE_EDGE x = true ∨ (SINGLE_EDGE x = false ∧ CLEAR_MSB x < g.nextPtr)

/-- The conclusion bundle of the cell-tagging claim for one call that turned
g into g': well-formedness is preserved, a multi tag never reverts, and a
single-tagged cell becomes multi-tagged exactly when this call is a
multi-path insertion on that very cell. -/
def TaggingConcl (g g' : Graph) (me : Int) (s d r : Nat) : Prop :=
  RelWF g'
  ∧ (∀ r' i j, cellMulti g r' i j → cellMulti g' r' i j)
  ∧ (∀ r' i j, cellSingle g r' i j →
      (cellMulti g' r' i j ↔ (me ≠ 0 ∧ r' = r ∧ i = s ∧ j = d)))

theorem clear_set_msb_le (p : Nat) : CLEAR_MSB (SET_MSB p) ≤ p := by
  unfold CLEAR_MSB SET_MSB
  rw [Nat.add_mod_right]
  exact Nat.le_trans (Nat.mod_le _ _) (Nat.mod_le _ _)

theorem clear_msb_lt (x : Nat) : CLEAR_MSB x < MSB_MASK := by
  unfold CLEAR_MSB
  exact Nat.mod_lt x (by decide)

theorem updRel_m (old : Nat → RGMatrix Nat) (r v s d r' i j : Nat) :
    ((if r' = r then
        { m := GrB_Matrix_setElement (old r).m v s d,
          tm := GrB_Matrix_setElement (old r).tm v d s } else old r') : RGMatrix Nat).m i j
      = if r' = r ∧ i = s ∧ j = d then some v else (old r').m i j := by
  by_cases h1 : r' = r
  · subst h1
    rw [if_pos rfl]
    simp only [GrB_Matrix_setElement]
    by_cases h2 : i = s ∧ j = d
    · obtain ⟨rfl, rfl⟩ := h2
      simp
    · simp [h2]
  · rw [if_neg h1, if_neg (by tauto)]

theorem taggingConcl_of_upd (g g' : Graph) (me : Int) (s d r v : Nat)
    (hcells : ∀ r' i j, (g'.relations r').m i j
        = if r' = r ∧ i = s ∧ j = d then some v else (g.relations r').m i j)
    (hmono : g.nextPtr ≤ g'.nextPtr)
    (hwf : RelWF g)
    (hv : SINGLE_EDGE v = true ∨ (SINGLE_EDGE v = false ∧ CLEAR_MSB v < g'.nextPtr))
    (hsm : ∀ x0, (g.relations r).m s d = some x0 → SINGLE_EDGE x0 = true →
        (SINGLE_EDGE v = false ↔ me ≠ 0))
    (hmm : ∀ x0, (g.relations r).m s d = some x0 → SINGLE_EDGE x0 = false →
        SINGLE_EDGE v = false) :
    TaggingConcl g g' me s d r := by
  refine ⟨?_, ?_, ?_⟩
  · intro r' i j y hy
    rw [hcells] at hy
    by_cases hcond : r' = r ∧ i = s ∧ j = d
    · rw [if_pos hcond] at hy
      obtain rfl : v = y := Option.some.inj hy
      exact hv.imp id id
    · rw [if_neg hcond] at hy
      rcases hwf r' i j y hy with h | ⟨h1, h2⟩
      · exact Or.inl h
      · exact Or.inr ⟨h1, Nat.lt_of_lt_of_le h2 hmono⟩
  · rintro r' i j ⟨x0, hx0, hx0m⟩
    by_cases hcond : r' = r ∧ i = s ∧ j = d
    · refine ⟨v, by rw [hcells, if_pos hcond], ?_⟩
      obtain ⟨rfl, rfl, rfl⟩ := hcond
      exact hmm x0 hx0 hx0m
    · exact ⟨x0, by rw [hcells, if_neg hcond]; exact hx0, hx0m⟩
  · rintro r' i j ⟨x0, hx0, hx0s⟩
    by_cases hcond : r' = r ∧ i = s ∧ j = d
    · obtain ⟨rfl, rfl, rfl⟩ := hcond
      constructor
      · rintro ⟨y, hy, hym⟩
        rw [hcells, if_pos ⟨rfl, rfl, rfl⟩] at hy
        obtain rfl : v = y := Option.some.inj hy
        exact ⟨(hsm x0 hx0 hx0s).mp hym, rfl, rfl, rfl⟩
      · rintro ⟨hme, -, -, -⟩
        exact ⟨v, by rw [hcells, if_pos ⟨rfl, rfl, rfl⟩], (hsm x0 hx0 hx0s).mpr hme⟩
    · constructor
      · rintro ⟨y, hy, hym⟩
        rw [hcells, if_neg hcond, hx0] at hy
        obtain rfl : x0 = y := Option.some.inj hy
        rw [hx0s] at hym
        exact Bool.noConfusion hym
      · rintro ⟨hme, hr, hi, hj⟩
        exact absurd ⟨hr, hi, hj⟩ hcond

/-- C5: along a load driven through Serializer_Graph_SetEdge (with the
single path only ever invoked on an unoccupied cell, its documented
precondition), every relation cell holds either no value, a top-bit-clear
scalar that is exactly one edge id, or a top-bit-set scalar whose remaining
bits reference an allocated growable sequence; a multi tag never reverts,
and the clear-to-set transition of a cell happens exactly at a multi-path
insertion on that already single-occupied cell — hence exactly once, at the
first second parallel edge. -/
theorem relation_cell_tagging_invariant (g : Graph) (me : Int) (e s d r : Nat)
    (hwf : RelWF g) (he : e < MSB_MASK)
    (hpre : me = 0 → (g.relations r).m s d = none) :
    TaggingConcl g (Serializer_Graph_SetEdge g me e s d r).1 me s d r := by
  by_cases hme : me ≠ 0
  · rw [setEdge_graph_multi g me hme e s d r]
    rcases hc : (g.relations r).m s d with _ | x
    · rw [multiConn_none (allocEdge g e) s d e r hc]
      refine taggingConcl_of_upd g _ me s d r e
        (fun r' i j => updRel_m (allocEdge g e).relations r e s d r' i j)
        (Nat.le_refl _) hwf (Or.inl (single_edge_of_lt e he)) ?_ ?_
      · intro x0 h0 _
        rw [hc] at h0
        exact Option.noConfusion h0
      · intro x0 h0 _
        rw [hc] at h0
        exact Option.noConfusion h0
    · rcases hx : SINGLE_EDGE x with _ | _
      · rw [multiConn_multi (allocEdge g e) s d e r x hc hx]
        refine taggingConcl_of_upd g _ me s d r (SET_MSB (CLEAR_MSB x))
          (fun r' i j => updRel_m (allocEdge g e).relations r (SET_MSB (CLEAR_MSB x)) s d r' i j)
          (Nat.le_refl _) hwf ?_ ?_ ?_
        · refine Or.inr ⟨single_edge_set_msb _, ?_⟩
          rw [clear_set_msb (CLEAR_MSB x) (clear_msb_lt x)]
          rcases hwf r s d x hc with h | ⟨-, h⟩
          · rw [hx] at h
            exact Bool.noConfusion h
          · exact h
        · intro x0 h0 hs0
          rw [hc] at h0
          obtain rfl : x = x0 := Option.some.inj h0
          rw [hx] at hs0
          exact Bool.noConfusion hs0
        · intro x0 h0 _
          exact single_edge_set_msb _
      · rw [multiConn_single (allocEdge g e) s d e r x hc hx]
        refine taggingConcl_of_upd g _ me s d r (SET_MSB g.nextPtr)
          (fun r' i j => updRel_m (allocEdge g e).relations r (SET_MSB g.nextPtr) s d r' i j)
          (Nat.le_succ _) hwf ?_ ?_ ?_
        · refine Or.inr ⟨single_edge_set_msb _, ?_⟩
          exact Nat.lt_of_le_of_lt (clear_set_msb_le g.nextPtr) (Nat.lt_succ_self _)
        · intro x0 _ _
          exact iff_of_true (single_edge_set_msb _) hme
        · intro x0 _ _
          exact single_edge_set_msb _
  · simp only [ne_eq, not_not] at hme
    subst hme
    rw [setEdge_graph_single g e s d r, singleConn_eq]
    refine taggingConcl_of_upd g _ 0 s d r e
      (fun r' i j => updRel_m (allocEdge g e).relations r e s d r' i j)
      (Nat.le_refl _) hwf (Or.inl (single_edge_of_lt e he)) ?_ ?_
    · intro x0 h0 _
      rw [hpre rfl] at h0
      exact Option.noConfusion h0
    · intro x0 h0 _
      rw [hpre rfl] at h0
      exact Option.noConfusion h0

theorem singleEdgeGraph_wf : RelWF singleEdgeGraph := by
  intro r i j x h
  simp only [singleEdgeGraph, emptyGraph, emptyRGMatrix] at h
  by_cases hr : r = 0
  · rw [if_pos hr] at h
    by_cases hij : i = 0 ∧ j = 1
    · simp only [if_pos hij] at h
      obtain rfl : (7 : Nat) = x := Option.some.inj h
      exact Or.inl (by decide)
    · simp only [if_neg hij] at h
      exact Option.noConfusion h
  · rw [if_neg hr] at h
    exact Option.noConfusion h

/-- Witness for C5: a multi-path insertion of edge id 11 onto the
single-occupied cell (0, 1) of singleEdgeGraph. -/
theorem relation_cell_tagging_invariant_witness :
    TaggingConcl singleEdgeGraph
      (Serializer_Graph_SetEdge singleEdgeGraph 1 11 0 1 0).1 1 0 1 0 :=
  relation_cell_tagging_invariant singleEdgeGraph 1 11 0 1 0 singleEdgeGraph_wf
    (by decide) (fun h => absurd h (by decide))

/-! ### Status checking of the matrix primitives -/

/-- Modelled from the spec: the GraphBLAS status codes the routines consult —
success, the expected no-entry signal, and an error code standing for any
reported failure. -/
inductive GrB_Info where
  | GrB_SUCCESS
  | GrB_NO_VALUE
  | GrB_INVALID_VALUE
deriving Repr, DecidableEq

/-- Instrumented transcription of _OptimizedMultiEdgeFormConnection in which
each GraphBLAS primitive call k may report failure (fail k = true); a failed
set leaves its matrix unchanged, a failed extract leaves its output variable
unspecified (modelled as 0), and ASSERT(info == GrB_SUCCESS) is the fatal
abort of spec §7, modelled as none.  Calls are numbered in execution order:
0 and 1 are the adjacency writes (source lines 121-124, asserted), 2 is the
extract (line 126, branched on GrB_NO_VALUE), 3 and 4 are the relation
forward and transpose writes — asserted on the absent branch (lines
128-131), but on the occupied branch (lines 149-150) the source assigns
info without any ASSERT, so there the routine continues regardless. -/
def _OptimizedMultiEdgeFormConnectionInstr (fail : Nat → Bool) (g : Graph)
    (src dest edge_id r : Nat) : Option Graph :=
  if fail 0 then none else
  let g := { g with adj :=
    { m := GrB_Matrix_setElement g.adj.m true src dest, tm := g.adj.tm } }
  if fail 1 then none else
  let g := { g with adj :=
    { m := g.adj.m, tm := GrB_Matrix_setElement g.adj.tm true dest src } }
  let cell := GrB_Matrix_extractElement (g.relations r).m src dest
  let info : GrB_Info :=
    if fail 2 then .GrB_INVALID_VALUE
    else (match cell with
      | none => .GrB_NO_VALUE
      | some _ => .GrB_SUCCESS)
  let x : Nat :=
    if fail 2 then 0 else (match cell with | none => 0 | some v => v)
  if info = .GrB_NO_VALUE then
    if fail 3 then none else
    let g := { g with relations := fun r' =>
        if r' = r then
          { m := GrB_Matrix_setElement (g.relations r).m edge_id src dest,
            tm := (g.relations r).tm }
        else g.relations r' }
    if fail 4 then none else
    let g := { g with relations := fun r' =>
        if r' = r then
          { m := (g.relations r).m,
            tm := GrB_Matrix_setElement (g.relations r).tm edge_id dest src }
        else g.relations r' }
    some { g with stats := GraphStatistics_IncEdgeCount g.stats r 1 }
  else
    let pg :=
      if SINGLE_EDGE x then
        let p := g.nextPtr
        let entries := array_append (array_append array_new x) edge_id
        let g2 := { g with
          heap := fun q => if q = p then entries else g.heap q,
          nextPtr := g.nextPtr + 1 }
        (SET_MSB p, g2)
      else
        let p := CLEAR_MSB x
        let entries := array_append (g.heap p) edge_id
        let g2 := { g with heap := fun q => if q = p then entries else g.heap q }
        (SET_MSB p, g2)
    let xv := pg.1
    let g := pg.2
    let g := if fail 3 then g else
      { g with relations := fun r' =>
          if r' = r then
            { m := GrB_Matrix_setElement (g.relations r).m xv src dest,
              tm := (g.relations r).tm }
          else g.relations r' }
    let g := if fail 4 then g else
      { g with relations := fun r' =>
          if r' = r then
            { m := (g.relations r).m,
              tm := GrB_Matrix_setElement (g.relations r).tm xv dest src }
          else g.relations r' }
    some { g with stats := GraphStatistics_IncEdgeCount g.stats r 1 }

/-- C4: evaluation showing the claim fails on the code as written — on the
occupied branch of the multi-edge routine the two relation writes (source
lines 149-150) assign their status to info but never check it, so a
reported failure of the forward write is silently ignored: the routine runs
to completion (some result instead of the fatal abort), leaves the forward
cell still holding the old single id 7 while the transpose cell was
retagged to the multi reference SET_MSB 0, and still increments the edge
counter — continuing with corrupted topology instead of aborting. -/
theorem unchecked_relation_write_not_fatal :
    Option.map
        (fun h => (((h.relations 0).m 0 1), ((h.relations 0).tm 1 0), h.stats 0))
        (_OptimizedMultiEdgeFormConnectionInstr (fun k => k == 3)
          singleEdgeGraph 0 1 11 0)
      = some (some 7, some (SET_MSB 0), 1) := by
  decide

end FalkorSer
